import Mathlib

set_option maxRecDepth 1000000

/-!
Verification development for the curator job engine: the bucket-to-local
sync job (`sthree/syncFromJob.go`) and the RPM repository rebuild pipeline
(`repobuilder/rpm.go`), shallowly embedded in Lean. Machine integers are
modelled as `Nat` with explicit reduction modulo 2^32 where Go's `uint32`
arithmetic wraps; external effects (storage service, filesystem, external
tools) are modelled by explicit environments and an action trace.
-/

namespace Curator

/-! ### MD5 (crypto/md5), over byte lists, RFC 1321 -/

def w32 (n : Nat) : Nat := n % 4294967296

def rotl (x n : Nat) : Nat := w32 ((x <<< n) ||| (x >>> (32 - n)))

def md5S : List Nat :=
  [7, 12, 17, 22, 7, 12, 17, 22, 7, 12, 17, 22, 7, 12, 17, 22,
   5, 9, 14, 20, 5, 9, 14, 20, 5, 9, 14, 20, 5, 9, 14, 20,
   4, 11, 16, 23, 4, 11, 16, 23, 4, 11, 16, 23, 4, 11, 16, 23,
   6, 10, 15, 21, 6, 10, 15, 21, 6, 10, 15, 21, 6, 10, 15, 21]

def md5K : List Nat :=
  [0xd76aa478, 0xe8c7b756, 0x242070db, 0xc1bdceee,
   0xf57c0faf, 0x4787c62a, 0xa8304613, 0xfd469501,
   0x698098d8, 0x8b44f7af, 0xffff5bb1, 0x895cd7be,
   0x6b901122, 0xfd987193, 0xa679438e, 0x49b40821,
   0xf61e2562, 0xc040b340, 0x265e5a51, 0xe9b6c7aa,
   0xd62f105d, 0x02441453, 0xd8a1e681, 0xe7d3fbc8,
   0x21e1cde6, 0xc33707d6, 0xf4d50d87, 0x455a14ed,
   0xa9e3e905, 0xfcefa3f8, 0x676f02d9, 0x8d2a4c8a,
   0xfffa3942, 0x8771f681, 0x6d9d6122, 0xfde5380c,
   0xa4beea44, 0x4bdecfa9, 0xf6bb4b60, 0xbebfbc70,
   0x289b7ec6, 0xeaa127fa, 0xd4ef3085, 0x04881d05,
   0xd9d4d039, 0xe6db99e5, 0x1fa27cf8, 0xc4ac5665,
   0xf4292244, 0x432aff97, 0xab9423a7, 0xfc93a039,
   0x655b59c3, 0x8f0ccc92, 0xffeff47d, 0x85845dd1,
   0x6fa87e4f, 0xfe2ce6e0, 0xa3014314, 0x4e0811a1,
   0xf7537e82, 0xbd3af235, 0x2ad7d2bb, 0xeb86d391]

def md5pad (msg : List Nat) : List Nat :=
  let len := msg.length
  let k := (119 - len % 64) % 64
  let bitLen := (8 * len) % (2 ^ 64)
  msg ++ [128] ++ List.replicate k 0 ++
    [bitLen % 256, bitLen / 2 ^ 8 % 256, bitLen / 2 ^ 16 % 256, bitLen / 2 ^ 24 % 256,
     bitLen / 2 ^ 32 % 256, bitLen / 2 ^ 40 % 256, bitLen / 2 ^ 48 % 256, bitLen / 2 ^ 56 % 256]

def bytesToWordsLE : List Nat → List Nat
  | a :: b :: c :: d :: rest => (a + 256 * b + 65536 * c + 16777216 * d) :: bytesToWordsLE rest
  | _ => []

def md5round (M : List Nat) (i : Nat) (st : Nat × Nat × Nat × Nat) : Nat × Nat × Nat × Nat :=
  let A := st.1
  let B := st.2.1
  let C := st.2.2.1
  let D := st.2.2.2
  let fg : Nat × Nat :=
    if i < 16 then ((B &&& C) ||| ((B ^^^ 4294967295) &&& D), i)
    else if i < 32 then ((D &&& B) ||| ((D ^^^ 4294967295) &&& C), (5 * i + 1) % 16)
    else if i < 48 then (B ^^^ C ^^^ D, (3 * i + 5) % 16)
    else (C ^^^ (B ||| (D ^^^ 4294967295)), (7 * i) % 16)
  let tmp := w32 (fg.1 + A + md5K.getD i 0 + M.getD fg.2 0)
  (D, w32 (B + rotl tmp (md5S.getD i 0)), B, C)

def md5block (st : Nat × Nat × Nat × Nat) (block : List Nat) : Nat × Nat × Nat × Nat :=
  let M := bytesToWordsLE block
  let r := (List.range 64).foldl (fun s i => md5round M i s) st
  (w32 (st.1 + r.1), w32 (st.2.1 + r.2.1), w32 (st.2.2.1 + r.2.2.1), w32 (st.2.2.2 + r.2.2.2))

def md5blocksAux : Nat → Nat × Nat × Nat × Nat → List Nat → Nat × Nat × Nat × Nat
  | _, st, [] => st
  | 0, st, _ => st
  | Nat.succ fuel, st, l => md5blocksAux fuel (md5block st (l.take 64)) (l.drop 64)

def toLE4 (x : Nat) : List Nat :=
  [x % 256, x / 256 % 256, x / 65536 % 256, x / 16777216 % 256]

def md5digest (msg : List Nat) : List Nat :=
  let p := md5pad msg
  let st := md5blocksAux p.length (0x67452301, 0xefcdab89, 0x98badcfe, 0x10325476) p
  toLE4 st.1 ++ toLE4 st.2.1 ++ toLE4 st.2.2.1 ++ toLE4 st.2.2.2

def hexDigit (n : Nat) : Char :=
  if n < 10 then Char.ofNat (48 + n) else Char.ofNat (87 + n)

def byteHex (b : Nat) : String :=
  String.mk [hexDigit (b / 16), hexDigit (b % 16)]

/-- The lowercase hex rendering `fmt.Sprintf("%x", md5.Sum(data))` of the MD5
checksum of a byte sequence. -/
def md5hex (msg : List Nat) : String :=
  String.join ((md5digest msg).map byteHex)

/-! ### strings.Trim with the cutset of `"\" "` (double quote and space) -/

def isCutset (c : Char) : Bool := c == '"' || c == ' '

/-- Go `strings.Trim(s, "\" ")`: drop leading and trailing quote/space characters. -/
def stringsTrim (s : String) : String :=
  String.mk (((s.data.dropWhile isCutset).reverse.dropWhile isCutset).reverse)

/-- ASCII lower-casing of one character, used to state the spec notion of a
case-insensitive checksum comparison. -/
def charLower (c : Char) : Char :=
  if 65 ≤ c.toNat ∧ c.toNat ≤ 90 then Char.ofNat (c.toNat + 32) else c

/-- ASCII lower-casing of a string, used to state the spec notion of a
case-insensitive checksum comparison. -/
def strLower (s : String) : String := String.mk (s.data.map charLower)

/-- `amboy.JobType`: a name and a version. -/
structure JobType where
  name : String
  version : Nat
deriving DecidableEq, Repr

namespace Sthree

/-- The part of goamz `s3.Key` the sync job reads: the object key and its
ETag (the stored checksum, possibly surrounded by quotes). -/
structure S3Key where
  key : String
  etag : String
deriving DecidableEq, Repr

/-- The part of `Bucket` the sync job reads: its name and the dry-run flag. -/
structure Bucket where
  name : String
  dryRun : Bool
deriving DecidableEq, Repr

/-- The local filesystem, as a partial map from path to byte content. -/
structure Fs where
  files : List (String × List Nat)
deriving DecidableEq, Repr

def Fs.hasPath (fs : Fs) (p : String) : Bool := (fs.files.lookup p).isSome

def Fs.readPath (fs : Fs) (p : String) : List Nat := ((fs.files.lookup p).getD [])

def Fs.writePath (fs : Fs) (p : String) (c : List Nat) : Fs :=
  ⟨(p, c) :: fs.files.filter (fun e => e.1 != p)⟩

/-- `os.RemoveAll`: remove the path and everything under it. -/
def Fs.removeAll (fs : Fs) (p : String) : Fs :=
  ⟨fs.files.filter (fun e => !(e.1 == p || String.isPrefixOf (p ++ "/") e.1))⟩

/-- One observable action of a `Run` execution, in order of occurrence. -/
inductive SyncAction where
  | checkExists (key : String)
  | fetch (key : String) (path : String)
  | removeLocal (path : String)
  | statLocal (path : String)
  | readLocal (path : String)
  | logLine (msg : String)
  | markComplete
deriving DecidableEq, Repr

/-- Results of the external collaborators during one `Run`: the outcome of the
storage existence check, injected failures for local removal, local read and
remote fetch, and the content a successful fetch writes locally. -/
structure SyncEnv where
  existsRes : Except String Bool
  removeErr : Option String
  readErr : Option String
  getErr : Option String
  remoteContent : List Nat
deriving Repr

/-- `syncFromJob`: one pending comparison/transfer task. -/
structure SyncFromJob where
  isComplete : Bool
  withDelete : Bool
  remoteFile : S3Key
  b : Bucket
  t : JobType
  localPath : String
  name : String
  errors : List String
deriving DecidableEq, Repr

/-- `newSyncFromJob`: the job constructor; `jobNum` stands for the process-wide
`job.GetNumber()` counter value. -/
def newSyncFromJob (b : Bucket) (localPath : String) (remoteFile : S3Key)
    (withDelete : Bool) (jobNum : Nat) : SyncFromJob :=
  { name := localPath ++ "." ++ toString jobNum ++ ".sync-from"
    remoteFile := remoteFile
    withDelete := withDelete
    localPath := localPath
    b := b
    t := { name := "s3-sync-from", version := 0 }
    isComplete := false
    errors := [] }

def SyncFromJob.ID (j : SyncFromJob) : String := j.name

def SyncFromJob.Type (j : SyncFromJob) : JobType := j.t

def SyncFromJob.Completed (j : SyncFromJob) : Bool := j.isComplete

def SyncFromJob.markComplete (j : SyncFromJob) : SyncFromJob :=
  { j with isComplete := true }

/-- `addError`: append a non-nil error to the accumulated list. -/
def SyncFromJob.addError (j : SyncFromJob) (err : Option String) : SyncFromJob :=
  { j with errors := j.errors ++ err.toList }

/-- `Error()`: nil when nothing was recorded, otherwise the newline join of
the rendered accumulated errors, in order. -/
def SyncFromJob.Error (j : SyncFromJob) : Option String :=
  if j.errors.isEmpty then none
  else some (String.intercalate "\n" j.errors)

/-- Modelled from the spec: `Bucket.Get` (the storage-client code is not under
src). It fetches the remote object to the local path; per the spec, the
dry-run flag suppresses the remote fetch, and the suppressed action is
observable as a log line; a real fetch either fails with the storage error or
overwrites the local path with the remote content. -/
def Bucket.get (b : Bucket) (env : SyncEnv) (key : String) (path : String) (fs : Fs) :
    Option String × Fs × List SyncAction :=
  if b.dryRun then
    (none, fs, [.logLine ("dry-run: would fetch " ++ key ++ " to " ++ path)])
  else
    match env.getErr with
    | some e => (some e, fs, [.fetch key path])
    | none => (none, fs.writePath path env.remoteContent, [.fetch key path])

/-- `doGet`: wrap a `Bucket.Get` failure. -/
def SyncFromJob.doGet (j : SyncFromJob) (env : SyncEnv) (fs : Fs) :
    Option String × Fs × List SyncAction :=
  match Bucket.get j.b env j.remoteFile.key j.localPath fs with
  | (some e, fs2, tr) => (some ("problem with s3 get during sync: " ++ e), fs2, tr)
  | (none, fs2, tr) => (none, fs2, tr)

/-- `Run`: the sync job body. Returns the job after the run, the filesystem
after the run, and the trace of observable actions in order. The deferred
`markComplete` fires on every return path, so every trace ends with
`.markComplete` and the returned job has `isComplete` set. -/
def SyncFromJob.run (j : SyncFromJob) (fs : Fs) (env : SyncEnv) :
    SyncFromJob × Fs × List SyncAction :=
  -- if the remote file does not exist, return early
  if j.remoteFile.key = "" then
    (j.markComplete, fs, [.markComplete])
  else
    match env.existsRes with
    | .error e =>
        ((j.addError (some ("problem checking if the file " ++ j.remoteFile.key ++
            " exists: " ++ e))).markComplete,
         fs, [.checkExists j.remoteFile.key, .markComplete])
    | .ok false =>
        if j.withDelete && !j.b.dryRun then
          -- os.RemoveAll: returns nil when the path is already absent
          if fs.hasPath j.localPath then
            match env.removeErr with
            | some e =>
                ((j.addError (some ("problem removing local file " ++ j.localPath ++
                    ", during sync from bucket " ++ j.b.name ++ " with delete: " ++ e))).markComplete,
                 fs, [.checkExists j.remoteFile.key, .removeLocal j.localPath, .markComplete])
            | none =>
                (j.markComplete, fs.removeAll j.localPath,
                 [.checkExists j.remoteFile.key, .removeLocal j.localPath,
                  .logLine ("removed local file " ++ j.localPath ++
                    " during sync from bucket " ++ j.b.name ++ " with delete"),
                  .markComplete])
          else
            (j.markComplete, fs.removeAll j.localPath,
             [.checkExists j.remoteFile.key, .removeLocal j.localPath,
              .logLine ("removed local file " ++ j.localPath ++
                " during sync from bucket " ++ j.b.name ++ " with delete"),
              .markComplete])
        else
          (j.markComplete, fs,
           [SyncAction.checkExists j.remoteFile.key] ++
           (if j.b.dryRun then
              [SyncAction.logLine ("dry-run: would remove local file " ++ j.remoteFile.key ++
                " from because it does not exist in bucket " ++ j.b.name)]
            else
              [SyncAction.logLine ("file " ++ j.remoteFile.key ++
                " disappeared during sync pull operation. Doing nothing because not in delete-mode")]) ++
           [SyncAction.markComplete])
    | .ok true =>
        -- if the local file does not exist, download the remote file and return
        if !(fs.hasPath j.localPath) then
          match j.doGet env fs with
          | (some e, fs2, tr) =>
              ((j.addError (some ("problem downloading file during sync: " ++ e))).markComplete,
               fs2,
               [.checkExists j.remoteFile.key, .statLocal j.localPath] ++ tr ++ [.markComplete])
          | (none, fs2, tr) =>
              (j.markComplete, fs2,
               [.checkExists j.remoteFile.key, .statLocal j.localPath] ++ tr ++ [.markComplete])
        else
          -- read the local file; a read failure is recorded but does not return
          let readOut : Option String × List Nat :=
            match env.readErr with
            | some e => (some ("problem reading file before hashing for sync operation: " ++ e), [])
            | none => (none, fs.readPath j.localPath)
          let j1 := j.addError readOut.1
          let remoteChecksum := stringsTrim j.remoteFile.etag
          if md5hex readOut.2 ≠ remoteChecksum then
            match j1.doGet env fs with
            | (some e, fs2, tr) =>
                ((j1.addError (some ("problem fetching file " ++ j.remoteFile.key ++
                    " during sync: " ++ e))).markComplete,
                 fs2,
                 [.checkExists j.remoteFile.key, .statLocal j.localPath, .readLocal j.localPath,
                  .logLine ("hashes are not the same: pull " ++ j.remoteFile.key)] ++ tr ++
                 [.markComplete])
            | (none, fs2, tr) =>
                (j1.markComplete, fs2,
                 [.checkExists j.remoteFile.key, .statLocal j.localPath, .readLocal j.localPath,
                  .logLine ("hashes are not the same: pull " ++ j.remoteFile.key)] ++ tr ++
                 [.markComplete])
          else
            (j1.markComplete, fs,
             [.checkExists j.remoteFile.key, .statLocal j.localPath, .readLocal j.localPath,
              .markComplete])

/-- One `Run()` invocation viewed as a state transformer on the job. -/
def SyncFromJob.runStep (fs : Fs) (env : SyncEnv) (j : SyncFromJob) : SyncFromJob :=
  (j.run fs env).1

/-- Count of actual remote fetch calls in a trace. -/
def fetchCount (tr : List SyncAction) : Nat :=
  (tr.filter (fun a => match a with | .fetch _ _ => true | _ => false)).length

/-- Count of actual local removal calls in a trace. -/
def removeCount (tr : List SyncAction) : Nat :=
  (tr.filter (fun a => match a with | .removeLocal _ => true | _ => false)).length

/-- Count of completion markings in a trace. -/
def markCount (tr : List SyncAction) : Nat :=
  (tr.filter (fun a => match a with | .markComplete => true | _ => false)).length

end Sthree

namespace Repobuilder

/-- Modelled from the spec: the release/version identifier produced by the
external version parser (`curator.NewMongoDBVersion` is not under src). -/
structure MongoDBVersion where
  source : String
deriving DecidableEq, Repr

/-- Modelled from the spec: static description of a distribution repository
layout; read-only during a build (`config.go` is not under src). -/
structure RepositoryConfig where
  layout : String
deriving DecidableEq, Repr

/-- Modelled from the spec: a distribution definition with its target remote
bucket (`config.go` is not under src); `rebuildRepo` reads only `Bucket`. -/
structure RepositoryDefinition where
  Bucket : String
deriving DecidableEq, Repr

/-- `BuildRPMRepoJob` with the fields of the embedded generic `Job` promoted,
as Go promotes them. The generic `Job` struct is not under src; its fields
are modelled from the spec: workspace root, release identifier, architecture,
profile, input package paths, dry-run flag, the shared mutex-protected map
from working directory to tool output, and the accumulated error list. -/
structure BuildRPMRepoJob where
  Name : String
  JobType : Curator.JobType
  WorkSpace : String
  release : MongoDBVersion
  Distro : RepositoryDefinition
  Conf : RepositoryConfig
  PackagePaths : List String
  Version : String
  Arch : String
  Profile : String
  DryRun : Bool
  Output : List (String × String)
  errors : List String
deriving DecidableEq, Repr

/-- Outcomes of the external collaborators of the rebuild pipeline: the
indexer subprocess per working directory (combined output and optional exit
error), the signer per metadata file, and the index-page build per directory. -/
structure RepoEnv where
  indexer : String → String × Option String
  signRes : String → Option String
  indexRes : String → Option String

/-- One observable action of a rebuild pipeline, in order of occurrence. -/
inductive RepoAction where
  | toolInvoke (dir : String)
  | signWrite (file : String)
  | indexWrite (dir : String)
  | logLine (msg : String)
deriving DecidableEq, Repr

def BuildRPMRepoJob.addError (j : BuildRPMRepoJob) (e : String) : BuildRPMRepoJob :=
  { j with errors := j.errors ++ [e] }

/-- Modelled from the spec: `Job.signFile` (the generic `Job` is not under
src) produces a detached signature for the metadata file; per the spec,
dry-run suppresses the sign mutation and logs the intended action, while a
real run invokes the external signer, whose failure is reported to the
caller. -/
def signFile (dryRun : Bool) (env : RepoEnv) (file : String) :
    Option String × List RepoAction :=
  if dryRun then (none, [.logLine ("dry-run: would sign " ++ file)])
  else (env.signRes file, [.signWrite file])

/-- Modelled from the spec: `RepositoryConfig.BuildIndexPageForDirectory`
(not under src) generates a browsable index for the working directory; per
the spec, dry-run suppresses the index mutation and logs the intended
action, while a real run performs it, reporting any failure. -/
def buildIndexPage (dryRun : Bool) (env : RepoEnv) (dir : String) (bucket : String) :
    Option String × List RepoAction :=
  if dryRun then (none, [.logLine ("dry-run: would build index pages for " ++ dir ++
    " in bucket " ++ bucket)])
  else (env.indexRes dir, [.indexWrite dir])

/-- The tail of `rebuildRepo` after the indexer stage produced `output`: log,
store the output into the shared map under the working directory key, then
run the sign stage and the index stage, each failure recorded and aborting
the remaining stages. -/
def BuildRPMRepoJob.afterTool (j : BuildRPMRepoJob) (env : RepoEnv)
    (workingDir : String) (output : String) (tr : List RepoAction) :
    BuildRPMRepoJob × List RepoAction :=
  let j1 : BuildRPMRepoJob := { j with Output := j.Output ++ [(workingDir, output)] }
  let tr1 := tr ++ [RepoAction.logLine ("rebuilt repo for: " ++ workingDir)]
  let metaDataFile := workingDir ++ "/repodata/repomd.xml"
  match signFile j.DryRun env metaDataFile with
  | (some e, str) =>
      (j1.addError ("signing release metadata for " ++ workingDir ++ ": " ++ e), tr1 ++ str)
  | (none, str) =>
      match buildIndexPage j.DryRun env workingDir j.Distro.Bucket with
      | (some e, itr) =>
          (j1.addError ("building index.html pages for " ++ workingDir ++ ": " ++ e),
           tr1 ++ str ++ itr)
      | (none, itr) => (j1, tr1 ++ str ++ itr)

/-- `rebuildRepo`: one metadata-rebuild pipeline over one working directory.
Dry-run stores the placeholder output and skips the subprocess; a real run
invokes the indexer, and a non-zero exit records the error and returns
before the output is stored and before the sign and index stages. -/
def BuildRPMRepoJob.rebuildRepo (j : BuildRPMRepoJob) (env : RepoEnv)
    (workingDir : String) : BuildRPMRepoJob × List RepoAction :=
  let cmdline := "createrepo -d -s sha " ++ workingDir
  let tr0 := [RepoAction.logLine ("building repo with operation: " ++ cmdline)]
  if j.DryRun then
    j.afterTool env workingDir "no output: dry run"
      (tr0 ++ [RepoAction.logLine ("[dry-run] would run: " ++ cmdline)])
  else
    let tr1 := tr0 ++ [RepoAction.logLine ("building repo with operation: " ++ cmdline),
                       RepoAction.toolInvoke workingDir]
    match (env.indexer workingDir).2 with
    | some e =>
        (j.addError ("running createrepo for " ++ workingDir ++ ": " ++ e),
         tr1 ++ [RepoAction.logLine e, RepoAction.logLine (env.indexer workingDir).1])
    | none =>
        j.afterTool env workingDir (env.indexer workingDir).1
          (tr1 ++ [RepoAction.logLine (env.indexer workingDir).1])

/-- Modelled from the spec: the rebuild coordinator launches one
`rebuildRepo` per working directory and blocks on a wait group until all
finish (the launching method is not under src). Every mutation of the
shared output map and error list is serialized behind the job mutex, and
distinct directories touch distinct keys, so the merged final state is the
fold of the per-directory pipelines. -/
def rebuildAll (j : BuildRPMRepoJob) (env : RepoEnv) (dirs : List String) :
    BuildRPMRepoJob :=
  dirs.foldl (fun acc d => (acc.rebuildRepo env d).1) j

/-- `NewBuildRPMRepo`: the constructor. `parseVersion` stands for the external
`curator.NewMongoDBVersion` parser, `getwd` for `os.Getwd`, and `jobNum` for
the process-wide `job.GetNumber()` counter value. -/
def NewBuildRPMRepo (parseVersion : String → Except String MongoDBVersion)
    (getwd : Except String String) (jobNum : Nat)
    (conf : RepositoryConfig) (distro : RepositoryDefinition)
    (version : String) (arch : String) (profile : String) (pkgs : List String) :
    Except String BuildRPMRepoJob :=
  match getwd with
  | .error e => .error e
  | .ok wd =>
    match parseVersion version with
    | .error e => .error e
    | .ok rel =>
      .ok { Name := "build-rpm-repo." ++ toString jobNum
            JobType := { name := "build-rpm-repo", version := 0 }
            WorkSpace := wd
            release := rel
            Distro := distro
            Conf := conf
            PackagePaths := pkgs
            Version := version
            Arch := arch
            Profile := profile
            DryRun := false
            Output := []
            errors := [] }

/-- Count of indexer subprocess invocations in a trace. -/
def toolCount (tr : List RepoAction) : Nat :=
  (tr.filter (fun a => match a with | .toolInvoke _ => true | _ => false)).length

/-- Count of signature mutations in a trace. -/
def signCount (tr : List RepoAction) : Nat :=
  (tr.filter (fun a => match a with | .signWrite _ => true | _ => false)).length

/-- Count of index-page mutations in a trace. -/
def indexCount (tr : List RepoAction) : Nat :=
  (tr.filter (fun a => match a with | .indexWrite _ => true | _ => false)).length

/-- The errors one real or dry pipeline over `d` contributes, as a pure
function of the environment. -/
def dirErrors (dryRun : Bool) (env : RepoEnv) (d : String) : List String :=
  if dryRun then []
  else
    match (env.indexer d).2 with
    | some e => ["running createrepo for " ++ d ++ ": " ++ e]
    | none =>
      match env.signRes (d ++ "/repodata/repomd.xml") with
      | some e => ["signing release metadata for " ++ d ++ ": " ++ e]
      | none =>
        match env.indexRes d with
        | some e => ["building index.html pages for " ++ d ++ ": " ++ e]
        | none => []

/-- The output-map entries one pipeline over `d` contributes. -/
def dirOutput (dryRun : Bool) (env : RepoEnv) (d : String) : List (String × String) :=
  if dryRun then [(d, "no output: dry run")]
  else
    match (env.indexer d).2 with
    | some _ => []
    | none => [(d, (env.indexer d).1)]

end Repobuilder

/-! ### Concrete inputs used by witnesses and counterexamples -/

namespace Sthree

/-- "hello" as bytes. -/
def helloBytes : List Nat := [104, 101, 108, 108, 111]

/-- A job whose remote ETag is the quoted uppercase MD5 of "hello". -/
def caseJob : SyncFromJob :=
  { isComplete := false, withDelete := false
    remoteFile := { key := "k", etag := "\"5D41402ABC4B2A76B9719D911017C592\"" }
    b := { name := "bkt", dryRun := false }
    t := { name := "s3-sync-from", version := 0 }
    localPath := "f", name := "f.0.sync-from", errors := [] }

/-- A filesystem holding "hello" at path f. -/
def helloFs : Fs := ⟨[("f", helloBytes)]⟩

/-- A fully healthy environment whose remote content is "world". -/
def okEnv : SyncEnv :=
  { existsRes := .ok true, removeErr := none, readErr := none, getErr := none
    remoteContent := [119, 111, 114, 108, 100] }

/-- A job whose remote ETag is the quoted lowercase MD5 of "hello". -/
def matchJob : SyncFromJob :=
  { caseJob with remoteFile := { key := "k", etag := "\"5d41402abc4b2a76b9719d911017c592\"" } }

/-- A job whose remote ETag differs from every hash used here. -/
def differJob : SyncFromJob :=
  { caseJob with remoteFile := { key := "k", etag := "\"00000000000000000000000000000000\"" } }

/-- An environment whose local read fails. -/
def readFailEnv : SyncEnv := { okEnv with readErr := some "boom" }

/-- A job with an empty remote key. -/
def emptyKeyJob : SyncFromJob :=
  { caseJob with remoteFile := { key := "", etag := "" } }

/-- A delete-mode job. -/
def deleteJob : SyncFromJob := { caseJob with withDelete := true }

/-- An environment where the remote object is missing. -/
def missingEnv : SyncEnv := { okEnv with existsRes := .ok false }

/-- A dry-run job. -/
def dryJob : SyncFromJob := { caseJob with b := { name := "bkt", dryRun := true } }

/-- An empty filesystem. -/
def emptyFs : Fs := ⟨[]⟩

end Sthree

namespace Repobuilder

/-- An environment where the indexer fails on d2 and everything else
succeeds. -/
def failEnv : RepoEnv :=
  { indexer := fun d => if d = "d2" then ("bad out", some "exit status 1") else ("out " ++ d, none)
    signRes := fun _ => none
    indexRes := fun _ => none }

/-- A real-run job with empty shared state. -/
def baseJob : BuildRPMRepoJob :=
  { Name := "build-rpm-repo.0"
    JobType := { name := "build-rpm-repo", version := 0 }
    WorkSpace := "/w", release := { source := "3.2.1" }
    Distro := { Bucket := "repo-bucket" }, Conf := { layout := "std" }
    PackagePaths := ["p.rpm"], Version := "3.2.1", Arch := "x86_64", Profile := "release"
    DryRun := false, Output := [], errors := [] }

/-- The same job in dry-run mode. -/
def dryBuildJob : BuildRPMRepoJob := { baseJob with DryRun := true }

/-- A version parser accepting only "3.2.1". -/
def toyParse (v : String) : Except String MongoDBVersion :=
  if v = "3.2.1" then .ok { source := v } else .error ("invalid version: " ++ v)

end Repobuilder

/-! ## Theorems -/

namespace Sthree

/-- Helper: the shape of the `doGet` trace under dry-run. -/
theorem doGet_dryRun (j : SyncFromJob) (env : SyncEnv) (fs : Fs) (h : j.b.dryRun = true) :
    j.doGet env fs =
      (none, fs, [SyncAction.logLine ("dry-run: would fetch " ++ j.remoteFile.key ++
        " to " ++ j.localPath)]) := by
  unfold SyncFromJob.doGet Bucket.get
  simp [h]

/-- Helper: a real `doGet` with no storage failure fetches once and writes
the remote content. -/
theorem doGet_real_ok (j : SyncFromJob) (env : SyncEnv) (fs : Fs)
    (h : j.b.dryRun = false) (hg : env.getErr = none) :
    j.doGet env fs =
      (none, fs.writePath j.localPath env.remoteContent,
       [SyncAction.fetch j.remoteFile.key j.localPath]) := by
  unfold SyncFromJob.doGet Bucket.get
  simp [h, hg]

/-- Helper: a real `doGet` with a storage failure fetches once, leaves the
filesystem alone and reports the wrapped error. -/
theorem doGet_real_err (j : SyncFromJob) (env : SyncEnv) (fs : Fs) (e : String)
    (h : j.b.dryRun = false) (hg : env.getErr = some e) :
    j.doGet env fs =
      (some ("problem with s3 get during sync: " ++ e), fs,
       [SyncAction.fetch j.remoteFile.key j.localPath]) := by
  unfold SyncFromJob.doGet Bucket.get
  simp [h, hg]

/-- Helper: the `doGet` trace never contains a completion marking. -/
theorem doGet_no_mark (j : SyncFromJob) (env : SyncEnv) (fs : Fs) :
    markCount (j.doGet env fs).2.2 = 0 := by
  unfold SyncFromJob.doGet Bucket.get markCount
  rcases h : j.b.dryRun with _ | _ <;> rcases hg : env.getErr with _ | e <;> simp [h, hg]

theorem markCount_append (l1 l2 : List SyncAction) :
    markCount (l1 ++ l2) = markCount l1 + markCount l2 := by
  simp [markCount, List.filter_append]

theorem fetchCount_append (l1 l2 : List SyncAction) :
    fetchCount (l1 ++ l2) = fetchCount l1 + fetchCount l2 := by
  simp [fetchCount, List.filter_append]

theorem removeCount_append (l1 l2 : List SyncAction) :
    removeCount (l1 ++ l2) = removeCount l1 + removeCount l2 := by
  simp [removeCount, List.filter_append]

/-- C5: `Completed()` is false before the first `Run()` and true after it on
every execution path, and the deferred completion marking is executed
exactly once per `Run`, early returns and failure paths included. -/
theorem claim_C5 :
    (∀ (b : Bucket) (lp : String) (rf : S3Key) (wd : Bool) (n : Nat),
       (newSyncFromJob b lp rf wd n).Completed = false) ∧
    (∀ (j : SyncFromJob) (fs : Fs) (env : SyncEnv),
       ((j.run fs env).1).Completed = true ∧ markCount (j.run fs env).2.2 = 1) := by
  refine ⟨fun b lp rf wd n => rfl, fun j fs env => ?_⟩
  have hget := doGet_no_mark j env fs
  have hget1 := doGet_no_mark (j.addError (match env.readErr with
    | some e => (some ("problem reading file before hashing for sync operation: " ++ e), ([] : List Nat))
    | none => (none, fs.readPath j.localPath)).1) env fs
  unfold SyncFromJob.run
  split
  · exact ⟨rfl, rfl⟩
  · split
    · exact ⟨rfl, rfl⟩
    · split
      · split
        · split <;> exact ⟨rfl, rfl⟩
        · exact ⟨rfl, rfl⟩
      · refine ⟨rfl, ?_⟩
        split <;> simp [markCount_append, markCount]
    · split
      · split <;> rename_i heq <;>
          refine ⟨rfl, ?_⟩ <;> rw [heq] at hget <;>
          simpa [markCount_append, markCount] using hget
      · dsimp only
        split
        · split <;> rename_i heq <;>
            refine ⟨rfl, ?_⟩ <;> rw [heq] at hget1 <;>
            simpa [markCount_append, markCount] using hget1
        · exact ⟨rfl, rfl⟩

/-- Helper: folding `addError` appends the recorded errors in order. -/
theorem addError_foldl_errors (j0 : SyncFromJob) (es : List String) :
    (es.foldl (fun j e => j.addError (some e)) j0).errors = j0.errors ++ es := by
  induction es generalizing j0 with
  | nil => simp
  | cons e es ih =>
    rw [List.foldl_cons, ih]
    simp [SyncFromJob.addError]

/-- C6: `Error()` is nil exactly when the accumulated error list is empty
(in particular nil on a fresh job, before anything was recorded); otherwise
it is the newline join of all recorded error messages in recording order. -/
theorem claim_C6 :
    (∀ j : SyncFromJob, (j.Error = none ↔ j.errors = [])) ∧
    (∀ (j0 : SyncFromJob) (es : List String), j0.errors = [] → es ≠ [] →
       (es.foldl (fun j e => j.addError (some e)) j0).Error =
         some (String.intercalate "\n" es)) ∧
    (∀ (b : Bucket) (lp : String) (rf : S3Key) (wd : Bool) (n : Nat),
       (newSyncFromJob b lp rf wd n).Error = none) := by
  refine ⟨fun j => ?_, fun j0 es h0 hne => ?_, fun b lp rf wd n => rfl⟩
  · unfold SyncFromJob.Error
    split <;> rename_i h <;> simp_all
  · unfold SyncFromJob.Error
    rw [addError_foldl_errors, h0]
    simp [hne]

/-- Witness for C6 at a concrete job and two concrete errors. -/
theorem claim_C6_witness :
    (["a", "b"].foldl (fun j e => j.addError (some e)) emptyKeyJob).Error =
      some "a\nb" := by
  have h := claim_C6.2.1 emptyKeyJob ["a", "b"] rfl (by decide)
  simpa using h

/-- C7: with an empty remote key, `Run` performs no storage call and no
filesystem operation, records no error, marks the job completed, and leaves
`Error()` nil. -/
theorem claim_C7 (j : SyncFromJob) (fs : Fs) (env : SyncEnv)
    (hk : j.remoteFile.key = "") :
    j.run fs env = ({ j with isComplete := true }, fs, [SyncAction.markComplete]) ∧
    ((j.run fs env).1).errors = j.errors ∧
    ((j.run fs env).1).Completed = true ∧
    (j.errors = [] → ((j.run fs env).1).Error = none) := by
  have hrun : j.run fs env = ({ j with isComplete := true }, fs, [SyncAction.markComplete]) := by
    unfold SyncFromJob.run
    simp [hk, SyncFromJob.markComplete]
  refine ⟨hrun, by rw [hrun], by rw [hrun]; rfl,
    fun h0 => by rw [hrun]; simp [SyncFromJob.Error, h0]⟩

/-- Witness for C7 at a concrete empty-key job. -/
theorem claim_C7_witness :
    emptyKeyJob.run helloFs okEnv =
      ({ emptyKeyJob with isComplete := true }, helloFs, [SyncAction.markComplete]) ∧
    ((emptyKeyJob.run helloFs okEnv).1).Error = none :=
  ⟨(claim_C7 emptyKeyJob helloFs okEnv rfl).1,
   (claim_C7 emptyKeyJob helloFs okEnv rfl).2.2.2 rfl⟩

/-- Helper: `Run` never changes any job field other than the completion flag
and the accumulated error list. -/
theorem run_frame (j : SyncFromJob) (fs : Fs) (env : SyncEnv) :
    ((j.run fs env).1).localPath = j.localPath ∧
    ((j.run fs env).1).remoteFile = j.remoteFile ∧
    ((j.run fs env).1).withDelete = j.withDelete ∧
    ((j.run fs env).1).b = j.b ∧
    ((j.run fs env).1).name = j.name ∧
    ((j.run fs env).1).t = j.t := by
  unfold SyncFromJob.run
  split
  · exact ⟨rfl, rfl, rfl, rfl, rfl, rfl⟩
  · split
    · exact ⟨rfl, rfl, rfl, rfl, rfl, rfl⟩
    · split
      · split
        · split <;> exact ⟨rfl, rfl, rfl, rfl, rfl, rfl⟩
        · exact ⟨rfl, rfl, rfl, rfl, rfl, rfl⟩
      · exact ⟨rfl, rfl, rfl, rfl, rfl, rfl⟩
    · split
      · split <;> exact ⟨rfl, rfl, rfl, rfl, rfl, rfl⟩
      · dsimp only
        split
        · split <;> exact ⟨rfl, rfl, rfl, rfl, rfl, rfl⟩
        · exact ⟨rfl, rfl, rfl, rfl, rfl, rfl⟩

/-- C10: on every execution path, `Run` mutates only the completion flag and
the error list; local path, remote file, delete-mode flag, bucket, name and
job type are untouched, so `ID()` and `Type()` are stable under any number
of `Run` invocations. -/
theorem claim_C10 (j : SyncFromJob) (fs : Fs) (env : SyncEnv) :
    (((j.run fs env).1).localPath = j.localPath ∧
     ((j.run fs env).1).remoteFile = j.remoteFile ∧
     ((j.run fs env).1).withDelete = j.withDelete ∧
     ((j.run fs env).1).b = j.b ∧
     ((j.run fs env).1).name = j.name ∧
     ((j.run fs env).1).t = j.t) ∧
    (∀ n : Nat, ((SyncFromJob.runStep fs env)^[n] j).ID = j.ID ∧
       ((SyncFromJob.runStep fs env)^[n] j).Type = j.Type) := by
  refine ⟨run_frame j fs env, fun n => ?_⟩
  induction n with
  | zero => exact ⟨rfl, rfl⟩
  | succ n ih =>
    rw [Function.iterate_succ_apply']
    constructor
    · show ((((SyncFromJob.runStep fs env)^[n] j).run fs env).1).name = j.name
      rw [(run_frame _ fs env).2.2.2.2.1]
      exact ih.1
    · show ((((SyncFromJob.runStep fs env)^[n] j).run fs env).1).t = j.t
      rw [(run_frame _ fs env).2.2.2.2.2]
      exact ih.2

/-- Helper: looking up a key that the filter removed finds nothing. -/
theorem lookup_filter_not_key {β : Type} (l : List (String × β)) (p : String)
    (g : String → Bool) :
    (l.filter (fun e => !(e.1 == p || g e.1))).lookup p = none := by
  induction l with
  | nil => rfl
  | cons a l ih =>
    rcases a with ⟨k, v⟩
    cases hk : (k == p) with
    | true => simpa [List.filter, hk] using ih
    | false =>
      have hne : p ≠ k := by
        have := (beq_eq_false_iff_ne (a := k) (b := p)).mp hk
        exact fun h => this h.symm
      have hpk : (p == k) = false := (beq_eq_false_iff_ne (a := p) (b := k)).mpr hne
      cases hg : g k with
      | true => simpa [List.filter, hk, hg] using ih
      | false => simpa [List.filter, hk, hg, List.lookup_cons, hpk] using ih

/-- Helper: after `removeAll`, the path is gone. -/
theorem removeAll_hasPath (fs : Fs) (p : String) :
    (fs.removeAll p).hasPath p = false := by
  unfold Fs.removeAll Fs.hasPath
  rw [lookup_filter_not_key fs.files p (fun x => String.isPrefixOf (p ++ "/") x)]
  rfl

/-- C8: remote missing, delete-mode on, dry-run off: `Run` removes the local
path entirely; a removal failure is a recorded error; and removal is
idempotent, since running on an already-absent path records no error. -/
theorem claim_C8 (j : SyncFromJob) (fs : Fs) (env : SyncEnv)
    (hk : j.remoteFile.key ≠ "") (hex : env.existsRes = .ok false)
    (hdel : j.withDelete = true) (hdry : j.b.dryRun = false) :
    (env.removeErr = none →
       (j.run fs env).2.1 = fs.removeAll j.localPath ∧
       ((j.run fs env).2.1).hasPath j.localPath = false ∧
       ((j.run fs env).1).errors = j.errors) ∧
    (∀ e, fs.hasPath j.localPath = true → env.removeErr = some e →
       ((j.run fs env).1).errors = j.errors ++
         ["problem removing local file " ++ j.localPath ++ ", during sync from bucket " ++
          j.b.name ++ " with delete: " ++ e] ∧
       (j.run fs env).2.1 = fs) ∧
    (fs.hasPath j.localPath = false →
       ((j.run fs env).1).errors = j.errors ∧
       (j.run fs env).2.1 = fs.removeAll j.localPath) := by
  refine ⟨fun hrem => ?_, fun e hloc hrem => ?_, fun hloc => ?_⟩
  · by_cases hloc : fs.hasPath j.localPath <;>
      simp [SyncFromJob.run, hk, hex, hdel, hdry, hrem, hloc, SyncFromJob.markComplete,
            removeAll_hasPath]
  · simp [SyncFromJob.run, hk, hex, hdel, hdry, hrem, hloc, SyncFromJob.markComplete,
          SyncFromJob.addError]
  · simp [SyncFromJob.run, hk, hex, hdel, hdry, hloc, SyncFromJob.markComplete]

/-- Witness for C8: removal of an existing path, then the idempotent second
run on the already-absent path. -/
theorem claim_C8_witness :
    (deleteJob.run helloFs missingEnv).2.1 = helloFs.removeAll "f" ∧
    ((deleteJob.run helloFs missingEnv).2.1).hasPath "f" = false ∧
    ((deleteJob.run helloFs missingEnv).1).errors = [] ∧
    ((deleteJob.run emptyFs missingEnv).1).errors = [] := by
  have h1 := (claim_C8 deleteJob helloFs missingEnv (by decide) rfl rfl rfl).1 rfl
  have h2 := (claim_C8 deleteJob emptyFs missingEnv (by decide) rfl rfl rfl).2.2 (by decide)
  exact ⟨h1.1, h1.2.1, h1.2.2, h2.1⟩

/-- Helper: under dry-run, `Run` leaves the filesystem alone and performs no
fetch and no removal. -/
theorem run_dryRun (j : SyncFromJob) (fs : Fs) (env : SyncEnv) (h : j.b.dryRun = true) :
    (j.run fs env).2.1 = fs ∧
    fetchCount (j.run fs env).2.2 = 0 ∧
    removeCount (j.run fs env).2.2 = 0 := by
  by_cases hk : j.remoteFile.key = ""
  · simp [SyncFromJob.run, hk, fetchCount, removeCount]
  · rcases hex : env.existsRes with e | b
    · simp [SyncFromJob.run, hk, hex, fetchCount, removeCount]
    · rcases b with _ | _
      · simp [SyncFromJob.run, hk, hex, h, fetchCount, removeCount]
      · by_cases hloc : fs.hasPath j.localPath
        · rcases hre : env.readErr with _ | e2
          · by_cases hmd : md5hex (fs.readPath j.localPath) = stringsTrim j.remoteFile.etag <;>
              simp [SyncFromJob.run, SyncFromJob.doGet, Bucket.get, hk, hex, h, hloc, hre, hmd,
                    SyncFromJob.addError, SyncFromJob.markComplete, fetchCount, removeCount]
          · by_cases hmd : md5hex [] = stringsTrim j.remoteFile.etag <;>
              simp [SyncFromJob.run, SyncFromJob.doGet, Bucket.get, hk, hex, h, hloc, hre, hmd,
                    SyncFromJob.addError, SyncFromJob.markComplete, fetchCount, removeCount]
        · simp [SyncFromJob.run, SyncFromJob.doGet, Bucket.get, hk, hex, h, hloc,
                SyncFromJob.addError, SyncFromJob.markComplete, fetchCount, removeCount]

end Sthree

namespace Repobuilder

/-- Helper: one `rebuildRepo` pipeline only appends its own errors and its
own output-map entry, both pure functions of the environment. -/
theorem rebuildRepo_state (j : BuildRPMRepoJob) (env : RepoEnv) (d : String) :
    (j.rebuildRepo env d).1 =
      { j with errors := j.errors ++ dirErrors j.DryRun env d,
               Output := j.Output ++ dirOutput j.DryRun env d } := by
  cases hdry : j.DryRun with
  | true =>
    simp [BuildRPMRepoJob.rebuildRepo, BuildRPMRepoJob.afterTool, signFile, buildIndexPage,
          dirErrors, dirOutput, hdry]
  | false =>
    rcases hidx : (env.indexer d).2 with _ | e
    · rcases hsign : env.signRes (d ++ "/repodata/repomd.xml") with _ | e2
      · rcases hind : env.indexRes d with _ | e3 <;>
          simp [BuildRPMRepoJob.rebuildRepo, BuildRPMRepoJob.afterTool, signFile, buildIndexPage,
                dirErrors, dirOutput, BuildRPMRepoJob.addError, hdry, hidx, hsign, hind]
      · simp [BuildRPMRepoJob.rebuildRepo, BuildRPMRepoJob.afterTool, signFile, buildIndexPage,
              dirErrors, dirOutput, BuildRPMRepoJob.addError, hdry, hidx, hsign]
    · simp [BuildRPMRepoJob.rebuildRepo, BuildRPMRepoJob.afterTool, signFile, buildIndexPage,
            dirErrors, dirOutput, BuildRPMRepoJob.addError, hdry, hidx]

/-- Helper: the merged coordinator state appends the per-directory error and
output contributions in directory order. -/
theorem rebuildAll_state (env : RepoEnv) (dirs : List String) (j : BuildRPMRepoJob) :
    rebuildAll j env dirs =
      { j with errors := j.errors ++ dirs.flatMap (dirErrors j.DryRun env),
               Output := j.Output ++ dirs.flatMap (dirOutput j.DryRun env) } := by
  induction dirs generalizing j with
  | nil => simp [rebuildAll]
  | cons d dirs ih =>
    unfold rebuildAll
    rw [List.foldl_cons, rebuildRepo_state]
    have := ih { j with errors := j.errors ++ dirErrors j.DryRun env d,
                        Output := j.Output ++ dirOutput j.DryRun env d }
    unfold rebuildAll at this
    rw [this]
    simp [List.flatMap_cons]

/-- Helper: a list whose contributions other than at `d` vanish flat-maps to
the contribution at `d`. -/
theorem flatMap_eq_single {β : Type} (dirs : List String) (f : String → List β)
    (d : String) (hd : d ∈ dirs) (hnd : dirs.Nodup)
    (ho : ∀ x ∈ dirs, x ≠ d → f x = []) :
    dirs.flatMap f = f d := by
  induction dirs with
  | nil => cases hd
  | cons a l ih =>
    rcases List.mem_cons.mp hd with h | h
    · subst h
      have hnil : l.flatMap f = [] := by
        have hall : ∀ x ∈ l, f x = [] := by
          intro x hx
          refine ho x (List.mem_cons_of_mem _ hx) ?_
          rintro rfl
          exact (List.nodup_cons.mp hnd).1 hx
        clear ih hd hnd ho
        induction l with
        | nil => rfl
        | cons b m ihm =>
          rw [List.flatMap_cons, hall b (List.mem_cons_self b m)]
          exact ihm (fun x hx => hall x (List.mem_cons_of_mem _ hx))
      rw [List.flatMap_cons, hnil, List.append_nil]
    · have ha : a ≠ d := by
        rintro rfl
        exact (List.nodup_cons.mp hnd).1 h
      rw [List.flatMap_cons, ho a (List.mem_cons_self a l) ha, List.nil_append]
      exact ih h (List.nodup_cons.mp hnd).2 (fun x hx hne => ho x (List.mem_cons_of_mem _ hx) hne)

/-- Helper: no output-map entry carries the key of the failing directory. -/
theorem lookup_flatMap_none (dirs : List String) (env : RepoEnv) (d : String) (e : String)
    (hfail : (env.indexer d).2 = some e)
    (hok : ∀ x ∈ dirs, x ≠ d → (env.indexer x).2 = none) :
    (dirs.flatMap (dirOutput false env)).lookup d = none := by
  induction dirs with
  | nil => rfl
  | cons a l ih =>
    rw [List.flatMap_cons]
    by_cases had : a = d
    · subst had
      rw [show dirOutput false env a = [] from by simp [dirOutput, hfail]]
      exact ih (fun x hx hne => hok x (List.mem_cons_of_mem _ hx) hne)
    · have hia := hok a (List.mem_cons_self a l) had
      rw [show dirOutput false env a = [(a, (env.indexer a).1)] from by simp [dirOutput, hia]]
      have hda : (d == a) = false :=
        (beq_eq_false_iff_ne (a := d) (b := a)).mpr (fun hh => had hh.symm)
      simp only [List.cons_append, List.nil_append, List.lookup_cons, hda]
      exact ih (fun x hx hne => hok x (List.mem_cons_of_mem _ hx) hne)

/-- Helper: a succeeding directory keeps its own output-map entry. -/
theorem lookup_flatMap_some (dirs : List String) (env : RepoEnv) (d d2 : String) (e : String)
    (hne : d2 ≠ d) (hd2 : d2 ∈ dirs)
    (hfail : (env.indexer d).2 = some e)
    (hok : ∀ x ∈ dirs, x ≠ d → (env.indexer x).2 = none) :
    (dirs.flatMap (dirOutput false env)).lookup d2 = some (env.indexer d2).1 := by
  induction dirs with
  | nil => cases hd2
  | cons a l ih =>
    rw [List.flatMap_cons]
    by_cases had2 : a = d2
    · subst had2
      have hia := hok a (List.mem_cons_self a l) hne
      rw [show dirOutput false env a = [(a, (env.indexer a).1)] from by simp [dirOutput, hia]]
      simp [List.lookup_cons]
    · have hd2l : d2 ∈ l := by
        rcases List.mem_cons.mp hd2 with h | h
        · exact absurd h.symm had2
        · exact h
      by_cases had : a = d
      · subst had
        rw [show dirOutput false env a = [] from by simp [dirOutput, hfail]]
        exact ih hd2l (fun x hx hne2 => hok x (List.mem_cons_of_mem _ hx) hne2)
      · have hia := hok a (List.mem_cons_self a l) had
        rw [show dirOutput false env a = [(a, (env.indexer a).1)] from by simp [dirOutput, hia]]
        have hda : (d2 == a) = false :=
          (beq_eq_false_iff_ne (a := d2) (b := a)).mpr (fun hh => had2 hh.symm)
        simp only [List.cons_append, List.nil_append, List.lookup_cons, hda]
        exact ih hd2l (fun x hx hne2 => hok x (List.mem_cons_of_mem _ hx) hne2)

/-- C4: in a real run, a working directory whose indexer exits non-zero
contributes exactly one error naming that directory, gains no output-map
entry, and its sign and index stages never run, while every other directory
still gains its output-map entry and the aggregate error list is exactly
that single entry. -/
theorem claim_C4 (j : BuildRPMRepoJob) (env : RepoEnv) (dirs : List String)
    (d : String) (e : String)
    (hdry : j.DryRun = false) (herr : j.errors = []) (hout : j.Output = [])
    (hmem : d ∈ dirs) (hnd : dirs.Nodup)
    (hfail : (env.indexer d).2 = some e)
    (hok : ∀ x ∈ dirs, x ≠ d →
      (env.indexer x).2 = none ∧
      env.signRes (x ++ "/repodata/repomd.xml") = none ∧ env.indexRes x = none) :
    (rebuildAll j env dirs).errors = ["running createrepo for " ++ d ++ ": " ++ e] ∧
    ((rebuildAll j env dirs).Output).lookup d = none ∧
    (∀ d2 ∈ dirs, d2 ≠ d →
      ((rebuildAll j env dirs).Output).lookup d2 = some (env.indexer d2).1) ∧
    (∀ j2 : BuildRPMRepoJob, j2.DryRun = false →
      signCount (j2.rebuildRepo env d).2 = 0 ∧ indexCount (j2.rebuildRepo env d).2 = 0) := by
  have hiok : ∀ x ∈ dirs, x ≠ d → (env.indexer x).2 = none :=
    fun x hx hne => (hok x hx hne).1
  have hstate := rebuildAll_state env dirs j
  refine ⟨?_, ?_, ?_, ?_⟩
  · rw [hstate]
    have : dirs.flatMap (dirErrors j.DryRun env) = dirErrors j.DryRun env d := by
      refine flatMap_eq_single dirs _ d hmem hnd ?_
      intro x hx hne
      rcases hok x hx hne with ⟨h1, h2, h3⟩
      simp [dirErrors, hdry, h1, h2, h3]
    simp only [this, herr, List.nil_append]
    simp [dirErrors, hdry, hfail]
  · rw [hstate]
    simp only [hout, List.nil_append, hdry]
    exact lookup_flatMap_none dirs env d e hfail hiok
  · intro d2 hd2 hne
    rw [hstate]
    simp only [hout, List.nil_append, hdry]
    exact lookup_flatMap_some dirs env d d2 e hne hd2 hfail hiok
  · intro j2 hdry2
    constructor <;>
      simp [BuildRPMRepoJob.rebuildRepo, BuildRPMRepoJob.afterTool, signFile, buildIndexPage,
            hdry2, hfail, signCount, indexCount, BuildRPMRepoJob.addError]

/-- Witness for C4: three directories, the second one failing. -/
theorem claim_C4_witness :
    (rebuildAll baseJob failEnv ["d1", "d2", "d3"]).errors =
      ["running createrepo for d2: exit status 1"] ∧
    ((rebuildAll baseJob failEnv ["d1", "d2", "d3"]).Output).lookup "d2" = none ∧
    ((rebuildAll baseJob failEnv ["d1", "d2", "d3"]).Output).lookup "d1" = some "out d1" ∧
    ((rebuildAll baseJob failEnv ["d1", "d2", "d3"]).Output).lookup "d3" = some "out d3" := by
  have h := claim_C4 baseJob failEnv ["d1", "d2", "d3"] "d2" "exit status 1"
    rfl rfl rfl (by decide) (by decide) (by decide)
    (by intro x hx hne; fin_cases hx <;> simp_all [failEnv])
  refine ⟨?_, h.2.1, ?_, ?_⟩
  · have := h.1
    simpa using this
  · have := h.2.2.1 "d1" (by decide) (by decide)
    simpa [failEnv] using this
  · have := h.2.2.1 "d3" (by decide) (by decide)
    simpa [failEnv] using this

/-- C9: an unparsable version string makes the constructor return an error
and no job; a parsable version with a determinable working directory yields
a fully populated job and no error. -/
theorem claim_C9 :
    (∀ (pv : String → Except String MongoDBVersion) (getwd : Except String String)
       (n : Nat) (conf : RepositoryConfig) (distro : RepositoryDefinition)
       (v a p : String) (pkgs : List String) (e : String),
       pv v = Except.error e →
       ∃ msg, NewBuildRPMRepo pv getwd n conf distro v a p pkgs = Except.error msg) ∧
    (∀ (pv : String → Except String MongoDBVersion) (wd : String)
       (n : Nat) (conf : RepositoryConfig) (distro : RepositoryDefinition)
       (v a p : String) (pkgs : List String) (rel : MongoDBVersion),
       pv v = Except.ok rel →
       NewBuildRPMRepo pv (Except.ok wd) n conf distro v a p pkgs =
         Except.ok { Name := "build-rpm-repo." ++ toString n
                     JobType := { name := "build-rpm-repo", version := 0 }
                     WorkSpace := wd
                     release := rel
                     Distro := distro
                     Conf := conf
                     PackagePaths := pkgs
                     Version := v
                     Arch := a
                     Profile := p
                     DryRun := false
                     Output := []
                     errors := [] }) := by
  constructor
  · intro pv getwd n conf distro v a p pkgs e hpv
    rcases getwd with ge | wd
    · exact ⟨ge, rfl⟩
    · exact ⟨e, by simp [NewBuildRPMRepo, hpv]⟩
  · intro pv wd n conf distro v a p pkgs rel hpv
    simp [NewBuildRPMRepo, hpv]

/-- Witness for C9 with a concrete toy parser: the unparsable and the
parsable case. -/
theorem claim_C9_witness :
    (∃ msg, NewBuildRPMRepo toyParse (Except.ok "/w") 0 { layout := "std" }
       { Bucket := "repo-bucket" } "not-a-version" "x86_64" "release" ["p.rpm"] =
       Except.error msg) ∧
    NewBuildRPMRepo toyParse (Except.ok "/w") 0 { layout := "std" }
       { Bucket := "repo-bucket" } "3.2.1" "x86_64" "release" ["p.rpm"] =
      Except.ok { Name := "build-rpm-repo.0"
                  JobType := { name := "build-rpm-repo", version := 0 }
                  WorkSpace := "/w"
                  release := { source := "3.2.1" }
                  Distro := { Bucket := "repo-bucket" }
                  Conf := { layout := "std" }
                  PackagePaths := ["p.rpm"]
                  Version := "3.2.1"
                  Arch := "x86_64"
                  Profile := "release"
                  DryRun := false
                  Output := []
                  errors := [] } :=
  ⟨claim_C9.1 toyParse (Except.ok "/w") 0 { layout := "std" } { Bucket := "repo-bucket" }
     "not-a-version" "x86_64" "release" ["p.rpm"] "invalid version: not-a-version" rfl,
   claim_C9.2 toyParse "/w" 0 { layout := "std" } { Bucket := "repo-bucket" }
     "3.2.1" "x86_64" "release" ["p.rpm"] { source := "3.2.1" } rfl⟩

/-- Helper: a dry-run rebuild pipeline stores the placeholder output,
records no error, performs no tool invocation and no sign or index
mutation, and logs each suppressed action. -/
theorem rebuildRepo_dryRun (j : BuildRPMRepoJob) (env : RepoEnv) (d : String)
    (h : j.DryRun = true) :
    (j.rebuildRepo env d).1 =
      { j with Output := j.Output ++ [(d, "no output: dry run")] } ∧
    toolCount (j.rebuildRepo env d).2 = 0 ∧
    signCount (j.rebuildRepo env d).2 = 0 ∧
    indexCount (j.rebuildRepo env d).2 = 0 ∧
    RepoAction.logLine ("[dry-run] would run: " ++ ("createrepo -d -s sha " ++ d)) ∈
      (j.rebuildRepo env d).2 ∧
    RepoAction.logLine ("dry-run: would sign " ++ (d ++ "/repodata/repomd.xml")) ∈
      (j.rebuildRepo env d).2 ∧
    RepoAction.logLine ("dry-run: would build index pages for " ++ d ++ " in bucket " ++
      j.Distro.Bucket) ∈ (j.rebuildRepo env d).2 := by
  refine ⟨?_, ?_⟩
  · simp [BuildRPMRepoJob.rebuildRepo, BuildRPMRepoJob.afterTool, signFile, buildIndexPage, h]
  · simp [BuildRPMRepoJob.rebuildRepo, BuildRPMRepoJob.afterTool, signFile, buildIndexPage, h,
          toolCount, signCount, indexCount]

end Repobuilder

/-- C3: with the dry-run flag set, a sync `Run` performs no remote fetch and
no local delete and leaves the filesystem unchanged, and a rebuild pipeline
performs no tool invocation and no sign or index mutation; each suppressed
action is observable as a log line describing it, and the dry-run rebuild
stage stores the placeholder output string and proceeds as successful. -/
theorem claim_C3 :
    (∀ (j : Sthree.SyncFromJob) (fs : Sthree.Fs) (env : Sthree.SyncEnv),
       j.b.dryRun = true →
       (j.run fs env).2.1 = fs ∧
       Sthree.fetchCount (j.run fs env).2.2 = 0 ∧
       Sthree.removeCount (j.run fs env).2.2 = 0 ∧
       (j.remoteFile.key ≠ "" → env.existsRes = Except.ok false →
         Sthree.SyncAction.logLine ("dry-run: would remove local file " ++ j.remoteFile.key ++
           " from because it does not exist in bucket " ++ j.b.name) ∈ (j.run fs env).2.2) ∧
       (j.remoteFile.key ≠ "" → env.existsRes = Except.ok true →
         fs.hasPath j.localPath = false →
         Sthree.SyncAction.logLine ("dry-run: would fetch " ++ j.remoteFile.key ++ " to " ++
           j.localPath) ∈ (j.run fs env).2.2) ∧
       (j.remoteFile.key ≠ "" → env.existsRes = Except.ok true →
         fs.hasPath j.localPath = true → env.readErr = none →
         md5hex (fs.readPath j.localPath) ≠ stringsTrim j.remoteFile.etag →
         Sthree.SyncAction.logLine ("dry-run: would fetch " ++ j.remoteFile.key ++ " to " ++
           j.localPath) ∈ (j.run fs env).2.2)) ∧
    (∀ (j : Repobuilder.BuildRPMRepoJob) (env : Repobuilder.RepoEnv) (d : String),
       j.DryRun = true →
       (j.rebuildRepo env d).1 =
         { j with Output := j.Output ++ [(d, "no output: dry run")] } ∧
       Repobuilder.toolCount (j.rebuildRepo env d).2 = 0 ∧
       Repobuilder.signCount (j.rebuildRepo env d).2 = 0 ∧
       Repobuilder.indexCount (j.rebuildRepo env d).2 = 0 ∧
       Repobuilder.RepoAction.logLine ("[dry-run] would run: " ++
         ("createrepo -d -s sha " ++ d)) ∈ (j.rebuildRepo env d).2 ∧
       Repobuilder.RepoAction.logLine ("dry-run: would sign " ++
         (d ++ "/repodata/repomd.xml")) ∈ (j.rebuildRepo env d).2 ∧
       Repobuilder.RepoAction.logLine ("dry-run: would build index pages for " ++ d ++
         " in bucket " ++ j.Distro.Bucket) ∈ (j.rebuildRepo env d).2) := by
  constructor
  · intro j fs env h
    refine ⟨(Sthree.run_dryRun j fs env h).1, (Sthree.run_dryRun j fs env h).2.1,
            (Sthree.run_dryRun j fs env h).2.2, ?_, ?_, ?_⟩
    · intro hk hex
      simp [Sthree.SyncFromJob.run, hk, hex, h]
    · intro hk hex hloc
      simp [Sthree.SyncFromJob.run, Sthree.SyncFromJob.doGet, Sthree.Bucket.get,
            hk, hex, h, hloc]
    · intro hk hex hloc hre hmd
      simp [Sthree.SyncFromJob.run, Sthree.SyncFromJob.doGet, Sthree.Bucket.get,
            Sthree.SyncFromJob.addError, hk, hex, h, hloc, hre, hmd]
  · intro j env d h
    exact Repobuilder.rebuildRepo_dryRun j env d h

namespace Sthree

/-- C1 counterexample: with local content "hello" and the remote checksum
stored as the quoted uppercase hex digest, the quote-stripped comparison
matches case-insensitively — so the claim as stated requires zero fetches —
yet `Run` performs one fetch, because the code compares case-sensitively. -/
theorem claim_C1_counterexample :
    strLower (md5hex (helloFs.readPath caseJob.localPath)) =
      strLower (stringsTrim caseJob.remoteFile.etag) ∧
    md5hex (helloFs.readPath caseJob.localPath) ≠ stringsTrim caseJob.remoteFile.etag ∧
    fetchCount (caseJob.run helloFs okEnv).2.2 = 1 := by
  refine ⟨by decide, by decide, by decide⟩

/-- C1 (amended): for a non-dry-run job with a non-empty key, an existing
remote object and a readable local file, `Run` fetches exactly once iff the
lowercase-hex MD5 of the local content differs, as an exact string, from
the remote checksum after stripping surrounding quote and space characters
(the comparison is case-sensitive); on a match there is no fetch, no new
error, and `Error()` stays nil; on a mismatch a successful fetch overwrites
the local file with the remote content. -/
theorem claim_C1 (j : SyncFromJob) (fs : Fs) (env : SyncEnv)
    (hk : j.remoteFile.key ≠ "") (hdry : j.b.dryRun = false)
    (hex : env.existsRes = Except.ok true) (hloc : fs.hasPath j.localPath = true)
    (hread : env.readErr = none) :
    (fetchCount (j.run fs env).2.2 = 1 ↔
       md5hex (fs.readPath j.localPath) ≠ stringsTrim j.remoteFile.etag) ∧
    (md5hex (fs.readPath j.localPath) = stringsTrim j.remoteFile.etag →
       fetchCount (j.run fs env).2.2 = 0 ∧
       ((j.run fs env).1).errors = j.errors ∧
       (j.errors = [] → ((j.run fs env).1).Error = none)) ∧
    (md5hex (fs.readPath j.localPath) ≠ stringsTrim j.remoteFile.etag → env.getErr = none →
       (j.run fs env).2.1 = fs.writePath j.localPath env.remoteContent) := by
  refine ⟨?_, fun heq => ?_, fun hne hg => ?_⟩
  · by_cases hmd : md5hex (fs.readPath j.localPath) = stringsTrim j.remoteFile.etag
    · simp [SyncFromJob.run, SyncFromJob.doGet, Bucket.get, SyncFromJob.addError,
            SyncFromJob.markComplete, hk, hdry, hex, hloc, hread, hmd, fetchCount]
    · rcases hget : env.getErr with _ | e <;>
        simp [SyncFromJob.run, SyncFromJob.doGet, Bucket.get, SyncFromJob.addError,
              SyncFromJob.markComplete, hk, hdry, hex, hloc, hread, hmd, hget, fetchCount]
  · have hrun : j.run fs env = ((j.addError none).markComplete, fs,
        [SyncAction.checkExists j.remoteFile.key, SyncAction.statLocal j.localPath,
         SyncAction.readLocal j.localPath, SyncAction.markComplete]) := by
      simp [SyncFromJob.run, hk, hdry, hex, hloc, hread, heq]
    refine ⟨by rw [hrun]; rfl,
            by rw [hrun]; simp [SyncFromJob.addError, SyncFromJob.markComplete],
            fun h0 => by
              rw [hrun]
              simp [SyncFromJob.addError, SyncFromJob.markComplete, SyncFromJob.Error, h0]⟩
  · simp [SyncFromJob.run, SyncFromJob.doGet, Bucket.get, SyncFromJob.addError,
          SyncFromJob.markComplete, hk, hdry, hex, hloc, hread, hne, hg]

/-- Witness for C1: the matching case performs no fetch and keeps `Error()`
nil; the differing case performs one fetch and overwrites the local file. -/
theorem claim_C1_witness :
    fetchCount (matchJob.run helloFs okEnv).2.2 = 0 ∧
    ((matchJob.run helloFs okEnv).1).Error = none ∧
    fetchCount (differJob.run helloFs okEnv).2.2 = 1 ∧
    (differJob.run helloFs okEnv).2.1 = helloFs.writePath "f" okEnv.remoteContent := by
  have h1 := claim_C1 matchJob helloFs okEnv (by decide) rfl rfl rfl rfl
  have h2 := claim_C1 differJob helloFs okEnv (by decide) rfl rfl rfl rfl
  exact ⟨(h1.2.1 (by decide)).1, (h1.2.1 (by decide)).2.2 rfl,
         h2.1.mpr (by decide), h2.2.2 (by decide) rfl⟩

/-- C2 counterexample: when reading the local file fails, the code records
the error but continues, and at this input performs one fetch — the claim
as stated requires that no fetch be attempted after the failed read. -/
theorem claim_C2_counterexample :
    ((differJob.run helloFs readFailEnv).1).errors =
      ["problem reading file before hashing for sync operation: boom"] ∧
    fetchCount (differJob.run helloFs readFailEnv).2.2 = 1 := by
  refine ⟨by decide, by decide⟩

/-- C2 (amended): for a non-dry-run job, when the remote object exists, the
local path exists and reading it fails, `Run` records the read error but
does not abort: the checksum comparison proceeds over empty data, so the
remote object is fetched iff the MD5 of empty content differs from the
stripped remote checksum (which is the typical case); under dry-run the
fetch is suppressed as always. -/
theorem claim_C2 (j : SyncFromJob) (fs : Fs) (env : SyncEnv) (e : String)
    (hk : j.remoteFile.key ≠ "") (hdry : j.b.dryRun = false)
    (hex : env.existsRes = Except.ok true) (hloc : fs.hasPath j.localPath = true)
    (hread : env.readErr = some e) :
    (∃ rest, ((j.run fs env).1).errors =
       j.errors ++ ("problem reading file before hashing for sync operation: " ++ e) :: rest) ∧
    fetchCount (j.run fs env).2.2 =
      (if md5hex [] ≠ stringsTrim j.remoteFile.etag then 1 else 0) := by
  by_cases hmd : md5hex [] = stringsTrim j.remoteFile.etag
  · constructor
    · refine ⟨[], ?_⟩
      simp [SyncFromJob.run, SyncFromJob.addError, SyncFromJob.markComplete,
            hk, hdry, hex, hloc, hread, hmd]
    · simp [SyncFromJob.run, SyncFromJob.addError, SyncFromJob.markComplete,
            hk, hdry, hex, hloc, hread, hmd, fetchCount]
  · rcases hget : env.getErr with _ | e2
    · constructor
      · refine ⟨[], ?_⟩
        simp [SyncFromJob.run, SyncFromJob.doGet, Bucket.get, SyncFromJob.addError,
              SyncFromJob.markComplete, hk, hdry, hex, hloc, hread, hmd, hget]
      · simp [SyncFromJob.run, SyncFromJob.doGet, Bucket.get, SyncFromJob.addError,
              SyncFromJob.markComplete, hk, hdry, hex, hloc, hread, hmd, hget, fetchCount]
    · constructor
      · refine ⟨["problem fetching file " ++ j.remoteFile.key ++ " during sync: " ++
          ("problem with s3 get during sync: " ++ e2)], ?_⟩
        simp [SyncFromJob.run, SyncFromJob.doGet, Bucket.get, SyncFromJob.addError,
              SyncFromJob.markComplete, hk, hdry, hex, hloc, hread, hmd, hget]
      · simp [SyncFromJob.run, SyncFromJob.doGet, Bucket.get, SyncFromJob.addError,
              SyncFromJob.markComplete, hk, hdry, hex, hloc, hread, hmd, hget, fetchCount]

/-- Witness for C2 at a concrete read failure: the read error is first among
the recorded errors and exactly one fetch is attempted. -/
theorem claim_C2_witness :
    (∃ rest, ((differJob.run helloFs readFailEnv).1).errors =
       "problem reading file before hashing for sync operation: boom" :: rest) ∧
    fetchCount (differJob.run helloFs readFailEnv).2.2 = 1 := by
  have h := claim_C2 differJob helloFs readFailEnv "boom" (by decide) rfl rfl rfl rfl
  constructor
  · obtain ⟨rest, hr⟩ := h.1
    exact ⟨rest, by simpa [differJob, caseJob] using hr⟩
  · have h2 := h.2
    rw [if_pos (by decide)] at h2
    exact h2

end Sthree

/-- Witness for C3: a dry-run sync job over a missing remote (logged
would-remove), a dry-run fetch path (logged would-fetch), and a dry-run
rebuild pipeline storing the placeholder. -/
theorem claim_C3_witness :
    (Sthree.dryJob.run Sthree.helloFs Sthree.missingEnv).2.1 = Sthree.helloFs ∧
    Sthree.fetchCount (Sthree.dryJob.run Sthree.helloFs Sthree.missingEnv).2.2 = 0 ∧
    Sthree.removeCount (Sthree.dryJob.run Sthree.helloFs Sthree.missingEnv).2.2 = 0 ∧
    Sthree.SyncAction.logLine ("dry-run: would remove local file " ++
      Sthree.dryJob.remoteFile.key ++ " from because it does not exist in bucket " ++
      Sthree.dryJob.b.name) ∈ (Sthree.dryJob.run Sthree.helloFs Sthree.missingEnv).2.2 ∧
    Sthree.SyncAction.logLine ("dry-run: would fetch " ++ Sthree.dryJob.remoteFile.key ++
      " to " ++ Sthree.dryJob.localPath) ∈
      (Sthree.dryJob.run Sthree.emptyFs Sthree.okEnv).2.2 ∧
    (Repobuilder.dryBuildJob.rebuildRepo Repobuilder.failEnv "d1").1 =
      { Repobuilder.dryBuildJob with Output := [("d1", "no output: dry run")] } ∧
    Repobuilder.toolCount (Repobuilder.dryBuildJob.rebuildRepo Repobuilder.failEnv "d1").2 = 0 := by
  have h1 := claim_C3.1 Sthree.dryJob Sthree.helloFs Sthree.missingEnv rfl
  have h2 := claim_C3.1 Sthree.dryJob Sthree.emptyFs Sthree.okEnv rfl
  have h3 := claim_C3.2 Repobuilder.dryBuildJob Repobuilder.failEnv "d1" rfl
  exact ⟨h1.1, h1.2.1, h1.2.2.1, h1.2.2.2.1 (by decide) rfl,
         h2.2.2.2.2.1 (by decide) rfl rfl,
         by simpa [Repobuilder.dryBuildJob, Repobuilder.baseJob] using h3.1, h3.2.1⟩

end Curator


